import Mathlib

/-!
Verification of the tag-relation graph engine of the `sok_bevy` repository,
shallowly embedded in Lean 4.  The engine lives in `src/data.rs`
(`ConnectedTag`, `MetaRelation` with its loader, top-N query and
shortest-path query) and `src/universe.rs` (`generate_universe_cartography`,
the cross-domain merge).  Rust `HashMap`s are modelled as association lists
(lookup returns the first matching key; the real maps have unique keys, of
which association lists are a generalisation), `HashSet`s as duplicate-free
lists built by insert-if-absent, and `i32` as `Int` (all arithmetic stays far
inside the i32 range, except for the saturating cast documented at
`edgeWeight`).
-/

/-- Embedding of `ConnectedTag` (src/data.rs:10-17): a tag name together with
a co-occurrence count.  Rust derives `Eq`/`Hash` on the `(name, count)` pair,
which `DecidableEq` mirrors. -/
structure ConnectedTag where
  name : String
  count : Int
  deriving DecidableEq

/-- Model of `HashMap<String, Vec<ConnectedTag>>`, the `relation_map` type. -/
abbrev RelationMap := List (String × List ConnectedTag)

/-- Model of `HashMap::get` on a `RelationMap`: first entry with the key. -/
def findTags : RelationMap → String → Option (List ConnectedTag)
  | [], _ => none
  | (k, v) :: rest, q => if k = q then some v else findTags rest q

/-- Embedding of the weight expression `(1000.0 / (t.count as f64)) as i32`
(src/data.rs:29).  For `c ≠ 0` both 1000 and `c` are exactly representable as
f64 and the correctly rounded quotient is within half an ulp of the rational
value `1000 / c`; since `|c| < 2^31`, a non-integer quotient is at least
`2^-31` away from any integer while half an ulp of any value of magnitude at
most 1000 is below `2^-43`, so rounding never crosses an integer and the
truncating (and here never saturating, as `|1000 / c| ≤ 1000`) cast to i32
yields exactly the integer division of 1000 by `c` truncated toward zero,
`Int.tdiv 1000 c`.  For `c = 0` the float division yields positive infinity
and the saturating float-to-int cast of Rust produces `i32::MAX`, the defined
value 2147483647. -/
def edgeWeight (c : Int) : Int :=
  if c = 0 then 2147483647 else Int.tdiv 1000 c

/-- Embedding of `ConnectedTag::neighbours` (src/data.rs:20-35): look the tag
name up in the relation map and pair every stored neighbour with its edge
weight; an absent tag has no neighbours. -/
def ConnectedTag.neighbours (self : ConnectedTag) (relation_map : RelationMap) :
    List (ConnectedTag × Int) :=
  match findTags relation_map self.name with
  | some connected_tags => connected_tags.map (fun t => (t, edgeWeight t.count))
  | none => []

/-- Embedding of `MetaRelation` (src/data.rs:38-44): a domain name plus its
relation map. -/
structure MetaRelation where
  domain : String
  relation_map : RelationMap
  deriving DecidableEq

/-- Descending-by-count comparator used by the loader's sort
(src/data.rs:55-58): `a` may precede `b` exactly when `b.count ≤ a.count`. -/
def countDescending (a b : ConnectedTag) : Bool :=
  decide (b.count ≤ a.count)

/-- Sorting pass of `MetaRelation::new` (src/data.rs:54-59): every stored
neighbour list is stably sorted in descending order of count.  The comparator
on two i32 values never returns `None`, so the `unwrap` in the source cannot
fail. -/
def sortTags (data : RelationMap) : RelationMap :=
  data.map (fun p => (p.1, p.2.mergeSort countDescending))

/-- Embedding of `MetaRelation::new` (src/data.rs:47-65) after the I/O
prefix: opening the file and parsing the JSON are I/O actions modelled by the
already-parsed `data` argument (an I/O or parse failure makes the whole
constructor fail before any of the logic embedded here runs). -/
def MetaRelation.ofData (domain : String) (data : RelationMap) : MetaRelation :=
  { domain := domain, relation_map := sortTags data }

/-- Embedding of `MetaRelation::find_top_n` (src/data.rs:67-78): the first
`n` entries of the stored (pre-sorted) neighbour list of the queried tag, or
the empty list when the tag is not a key. -/
def MetaRelation.find_top_n (self : MetaRelation) (tag_query : String) (n : Nat) :
    List ConnectedTag :=
  match findTags self.relation_map tag_query with
  | some tags => tags.take n
  | none => []

/-- Frontier of the search: entries of cost, node, and the path to the node
stored in reverse order. -/
abbrev Frontier := List (Int × ConnectedTag × List ConnectedTag)

/-- Extraction of a minimum-cost entry from the frontier, returning it
together with the remaining entries; models the priority-queue pop of the
uniform-cost search. -/
def extractMin : Frontier → Option ((Int × ConnectedTag × List ConnectedTag) × Frontier)
  | [] => none
  | x :: xs =>
    match extractMin xs with
    | none => some (x, [])
    | some (y, ys) => if x.1 ≤ y.1 then some (x, xs) else some (y, x :: ys)

/-- Modelled from the spec: the main loop of the `dijkstra` function of the
external `pathfinding` crate called at src/data.rs:87, which is not part of
this repository; the spec (section 4.3) describes it as a uniform-cost
(Dijkstra) search.  Repeatedly pop a minimum-cost frontier entry; if it
satisfies the success predicate return its path (start and goal inclusive)
and accumulated cost; if the node was already settled drop it; otherwise
settle it and enqueue its successors with accumulated costs.  The search
naturally terminates when the frontier empties; the `fuel` argument merely
bounds the number of pops so the recursion is structural, and callers pass
fuel exceeding the maximal possible number of pops. -/
def dijkstraLoop (succs : ConnectedTag → List (ConnectedTag × Int))
    (success : ConnectedTag → Bool) :
    Nat → Frontier → List ConnectedTag → Option (List ConnectedTag × Int)
  | 0, _, _ => none
  | fuel + 1, frontier, visited =>
    match extractMin frontier with
    | none => none
    | some ((cost, node, revpath), rest) =>
      if success node then some (revpath.reverse, cost)
      else if node ∈ visited then dijkstraLoop succs success fuel rest visited
      else
        dijkstraLoop succs success fuel
          (rest ++ (succs node).map (fun s => (cost + s.2, s.1, s.1 :: revpath)))
          (node :: visited)

/-- Total number of neighbour records stored in a relation map. -/
def totalTagCount (m : RelationMap) : Nat :=
  (m.map (fun p => p.2.length)).sum

/-- Fuel sufficient for the search to terminate naturally: every pop removes
an enqueued entry, the start contributes one entry, every settled node (at
most `1 + totalTagCount m` distinct node values exist) enqueues at most
`totalTagCount m` entries, so the number of pops is at most
`(totalTagCount m + 1) ^ 2` and the fuel strictly exceeds it. -/
def searchFuel (m : RelationMap) : Nat :=
  Nat.succ ((totalTagCount m + 1) * (totalTagCount m + 1))

/-- Modelled from the spec: entry point of the `pathfinding` crate's
`dijkstra` — start node, successor function, success predicate (fuel as
explained at `dijkstraLoop`). -/
def dijkstra (start : ConnectedTag) (succs : ConnectedTag → List (ConnectedTag × Int))
    (success : ConnectedTag → Bool) (fuel : Nat) : Option (List ConnectedTag × Int) :=
  dijkstraLoop succs success fuel [(0, start, [start])] []

/-- Embedding of `MetaRelation::find_path` (src/data.rs:80-96): if the goal
is not a key of the relation map return `none` immediately; otherwise run the
search from a start node carrying count 0, expanding neighbours through the
relation map and succeeding on any node whose name equals the goal. -/
def MetaRelation.find_path (self : MetaRelation) (start goal : String) :
    Option (List ConnectedTag × Int) :=
  match findTags self.relation_map goal with
  | none => none
  | some _ =>
    dijkstra { name := start, count := 0 }
      (fun t => t.neighbours self.relation_map)
      (fun t => t.name == goal)
      (searchFuel self.relation_map)

/-- Embedding of `Connection` (src/universe.rs:5-9): the unordered pair is a
`HashSet<(String, String)>` into which the source inserts exactly one ordered
pair, modelled as a duplicate-free list. -/
structure Connection where
  planet_pairs : List (String × String)
  count : Int
  deriving DecidableEq

/-- Embedding of `Planet` (src/universe.rs:11-17). -/
structure Planet where
  name : String
  conns : List Connection
  belong_galaxy : List String
  deriving DecidableEq

/-- Embedding of `Galaxy` (src/universe.rs:19-22). -/
structure Galaxy where
  name : String
  deriving DecidableEq

/-- Model of `HashMap::insert`: replace the value of an existing key, or
append a new entry. -/
def insertAssoc {α : Type} : List (String × α) → String → α → List (String × α)
  | [], k, v => [(k, v)]
  | (k', v') :: rest, k, v =>
    if k' = k then (k, v) :: rest else (k', v') :: insertAssoc rest k v

/-- Model of `HashMap::get_mut` followed by an in-place mutation: apply `f`
to the value of the key, if present.  In the source the corresponding
`unwrap` cannot fail because the discovery pass has already inserted every
key that the connection pass looks up. -/
def updateAssoc {α : Type} : List (String × α) → String → (α → α) → List (String × α)
  | [], _, _ => []
  | (k', v') :: rest, k, f =>
    if k' = k then (k, f v') :: rest else (k', v') :: updateAssoc rest k f

/-- Model of `HashSet::insert` on a set of strings. -/
def insertSet (s : List String) (x : String) : List String :=
  if x ∈ s then s else s ++ [x]

/-- Pass 1 of `generate_universe_cartography` (src/universe.rs:26-36): one
`Galaxy` per domain. -/
def generateGalaxies (meta_relations : List MetaRelation) : List (String × Galaxy) :=
  meta_relations.foldl
    (fun galaxies meta => insertAssoc galaxies meta.domain { name := meta.domain })
    []

/-- Pass 2 of `generate_universe_cartography` (src/universe.rs:39-59): walk
every domain's map entries; for a not-yet-discovered tag name, record it as
discovered, insert a fresh `Planet`, and insert the current domain into that
planet's `belong_galaxy`.  Nothing happens for an already-discovered name —
in particular `belong_galaxy` receives no further domains.  Returns the
planet map and the discovered set. -/
def discoverPlanets (meta_relations : List MetaRelation) :
    List (String × Planet) × List String :=
  meta_relations.foldl
    (fun acc meta =>
      meta.relation_map.foldl
        (fun acc entry =>
          if entry.1 ∈ acc.2 then acc
          else
            (updateAssoc
              (insertAssoc acc.1 entry.1
                { name := entry.1, conns := [], belong_galaxy := [] })
              entry.1
              (fun p => { p with belong_galaxy := insertSet p.belong_galaxy meta.domain }),
             insertSet acc.2 entry.1))
        acc)
    ([], [])

/-- Pass 3 of `generate_universe_cartography` (src/universe.rs:63-84): for
every domain and every map entry, append to the source planet one
`Connection` per neighbour whose name is not in the shared explored set (the
set does not change while one entry's neighbour list is walked), each
carrying the ordered pair (source, neighbour) and the neighbour's count;
afterwards mark the source name explored. -/
def connectPlanets (meta_relations : List MetaRelation)
    (planets : List (String × Planet)) : List (String × Planet) :=
  (meta_relations.foldl
    (fun acc meta =>
      meta.relation_map.foldl
        (fun acc entry =>
          (updateAssoc acc.1 entry.1
            (fun p =>
              { p with
                conns := entry.2.foldl
                  (fun cs t =>
                    if t.name ∈ acc.2 then cs
                    else cs ++ [{ planet_pairs := [(entry.1, t.name)], count := t.count }])
                  p.conns }),
           insertSet acc.2 entry.1))
        acc)
    (planets, [])).1

/-- Embedding of `generate_universe_cartography` (src/universe.rs:24-93);
the call `get_all_relations("datasets/")` at line 26 reads and parses files
from disk, which is I/O modelled by the `meta_relations` argument, the list
of loaded relations in directory order. -/
def generate_universe_cartography (meta_relations : List MetaRelation) :
    List (String × Galaxy) × List (String × Planet) :=
  (generateGalaxies meta_relations,
   connectPlanets meta_relations (discoverPlanets meta_relations).1)

/-- Number of connections, across every planet of the merged model, whose
stored pair is the unordered pair of the two given names. -/
def countPairConns (planets : List (String × Planet)) (x y : String) : Nat :=
  (planets.map (fun p =>
    (p.2.conns.filter (fun c =>
      c.planet_pairs.contains (x, y) || c.planet_pairs.contains (y, x))).length)).sum

/-- Fixture for the first claim: tag "a" is a relation-map key in the two
domains D1 and D2. -/
def metasTwoDomains : List MetaRelation :=
  [ { domain := "D1", relation_map := [("a", [])] },
    { domain := "D2", relation_map := [("a", [])] } ]

/-- Fixture for the dedup claim: the undirected edge (a, b) is present in
both domains, with count 10 in D1 and count 20 in D2. -/
def metasSharedEdge : List MetaRelation :=
  [ { domain := "D1",
      relation_map := [("a", [⟨"b", 10⟩]), ("b", [⟨"a", 10⟩])] },
    { domain := "D2",
      relation_map := [("a", [⟨"b", 20⟩]), ("b", [⟨"a", 20⟩])] } ]

/-- Fixture for the concrete shortest-path claim, loaded through the loader
so the lists pass the sorting phase. -/
def relThreeTags : MetaRelation :=
  MetaRelation.ofData "dom"
    [("a", [⟨"b", 10⟩]), ("b", [⟨"a", 10⟩]), ("c", [⟨"a", 5⟩])]

/-- C1: the claim says that a tag name keyed in two domains yields one planet
whose `belong_galaxy` contains both domain names.  The single-planet half
holds, but in pass 2 of `generate_universe_cartography`
(src/universe.rs:42-59) the `belong_galaxy.insert` runs only inside the
not-yet-discovered branch, so only the first discovering domain is ever
recorded — here the merged model for two domains D1, D2 both keying "a" is a
single planet whose `belong_galaxy` is exactly ["D1"], without "D2",
contradicting the declared purpose of the field (src/universe.rs:15, "One
planet can belong to multiple galaxies"). -/
theorem c1_belong_galaxy_keeps_only_first_domain :
    (generate_universe_cartography metasTwoDomains).2 =
      [("a", { name := "a", conns := [], belong_galaxy := ["D1"] })] := by
  decide

/-- C2: every edge produced by neighbour expansion whose neighbour has
co-occurrence count at least 1 carries weight `1000 / count` — the floor of
the rational 1000 / count, since both operands are non-negative — and this
weight is a non-negative integer. -/
theorem c2_neighbour_weight_is_floor (self : ConnectedTag) (m : RelationMap)
    (t : ConnectedTag) (w : Int)
    (hmem : (t, w) ∈ self.neighbours m) (hc : 1 ≤ t.count) :
    w = 1000 / t.count ∧ 0 ≤ w := by
  unfold ConnectedTag.neighbours at hmem
  cases hfind : findTags m self.name with
  | none => rw [hfind] at hmem; simp at hmem
  | some l =>
    rw [hfind] at hmem
    simp only [List.mem_map, Prod.mk.injEq] at hmem
    obtain ⟨a, -, rfl, rfl⟩ := hmem
    have hz : ¬ a.count = 0 := by omega
    have ht : edgeWeight a.count = 1000 / a.count := by
      unfold edgeWeight
      rw [if_neg hz]
      exact Int.tdiv_eq_ediv (by norm_num) (by omega)
    exact ⟨ht, ht ▸ Int.ediv_nonneg (by norm_num) (by omega)⟩

/-- Witness for c2_neighbour_weight_is_floor at a concrete map: the single
neighbour record of "a" has count 333, so the produced weight is 3. -/
theorem c2_neighbour_weight_is_floor_witness :
    (3 : Int) = 1000 / (333 : Int) ∧ (0 : Int) ≤ 3 :=
  c2_neighbour_weight_is_floor ⟨"a", 0⟩ [("a", [⟨"b", 333⟩])] ⟨"b", 333⟩ 3
    (by decide) (by decide)

/-- C3 counterexample: the claim says a zero co-occurrence count makes the
weight computation fault.  It does not: the Rust expression divides floats,
`1000.0 / 0.0` is positive infinity, and the saturating float-to-int cast
gives the defined value 2147483647 (`i32::MAX`) — neighbour expansion on a
concrete map holding a zero-count record returns that defined edge. -/
theorem c3_zero_count_does_not_fault :
    ConnectedTag.neighbours ⟨"a", 0⟩ [("a", [⟨"b", 0⟩])] =
      [(⟨"b", 0⟩, 2147483647)] := by
  decide

/-- C3 amended: for an edge whose co-occurrence count is 0, neighbour
expansion produces the defined weight 2147483647 (`i32::MAX`, from the float
division yielding positive infinity and the saturating cast) instead of
faulting; and indeed nothing guards against such records — the loader keeps
every record of every list (sorting only permutes a list), so zero-count
records reach the search. -/
theorem c3_zero_count_weight_defined :
    (∀ (self : ConnectedTag) (m : RelationMap) (t : ConnectedTag) (w : Int),
        (t, w) ∈ self.neighbours m → t.count = 0 → w = 2147483647) ∧
    (∀ (domain : String) (data : RelationMap) (k : String)
        (tags : List ConnectedTag),
        (k, tags) ∈ data →
          ∃ tags', (k, tags') ∈ (MetaRelation.ofData domain data).relation_map ∧
            tags'.Perm tags) := by
  constructor
  · intro self m t w hmem hc
    unfold ConnectedTag.neighbours at hmem
    cases hfind : findTags m self.name with
    | none => rw [hfind] at hmem; simp at hmem
    | some l =>
      rw [hfind] at hmem
      simp only [List.mem_map, Prod.mk.injEq] at hmem
      obtain ⟨a, -, rfl, rfl⟩ := hmem
      unfold edgeWeight
      rw [if_pos hc]
  · intro domain data k tags hmem
    refine ⟨tags.mergeSort countDescending, ?_, List.mergeSort_perm tags _⟩
    unfold MetaRelation.ofData sortTags
    simp only [List.mem_map]
    exact ⟨(k, tags), hmem, rfl⟩

/-- Witness for c3_zero_count_weight_defined: the zero-count record of the
concrete map gets weight 2147483647. -/
theorem c3_zero_count_weight_defined_witness :
    edgeWeight 0 = 2147483647 :=
  c3_zero_count_weight_defined.1 ⟨"a", 0⟩ [("a", [⟨"b", 0⟩])] ⟨"b", 0⟩
    (edgeWeight 0) (by decide) rfl

/-- C4: whenever the goal is not a key of the relation map, `find_path`
returns `none` by the pre-search existence check, never reaching the search
(and hence never faulting), regardless of the goal occurring as a neighbour
value inside some list. -/
theorem c4_find_path_absent_goal_none (self : MetaRelation) (start goal : String)
    (h : findTags self.relation_map goal = none) :
    self.find_path start goal = none := by
  unfold MetaRelation.find_path
  rw [h]

/-- Witness for c4_find_path_absent_goal_none on a map where "b" occurs only
as a neighbour value, never as a key. -/
theorem c4_find_path_absent_goal_none_witness :
    (MetaRelation.mk "dom" [("a", [⟨"b", 10⟩])]).find_path "a" "b" = none :=
  c4_find_path_absent_goal_none ⟨"dom", [("a", [⟨"b", 10⟩])]⟩ "a" "b" (by decide)

/-- C5: with the undirected edge (a, b) present in both domains (count 10 in
D1, count 20 in D2), the merged model contains exactly one `Connection` whose
pair is the unordered pair of "a" and "b", across the connection lists of all
planets: the shared explored set makes the reverse edge of D1 and both
directions of D2 skip. -/
theorem c5_shared_edge_single_connection :
    countPairConns (generate_universe_cartography metasSharedEdge).2 "a" "b" = 1 := by
  decide

/-- C6: on the single-domain map {a: [(b,10)], b: [(a,10)], c: [(a,5)]}
loaded through the loader, the path query from "a" to "b" yields the tag
names ["a", "b"] at total cost 100 = 1000 / 10, and from "c" to "b" the
names ["c", "a", "b"] at total cost 300 = 1000 / 5 + 1000 / 10. -/
theorem c6_concrete_paths :
    ((relThreeTags.find_path "a" "b").map
        (fun r => (r.1.map ConnectedTag.name, r.2)) = some (["a", "b"], 100)) ∧
    ((relThreeTags.find_path "c" "b").map
        (fun r => (r.1.map ConnectedTag.name, r.2)) = some (["c", "a", "b"], 300)) := by
  have h : relThreeTags =
      ⟨"dom", [("a", [⟨"b", 10⟩]), ("b", [⟨"a", 10⟩]), ("c", [⟨"a", 5⟩])]⟩ := by
    unfold relThreeTags MetaRelation.ofData sortTags
    simp [List.mergeSort_singleton]
  rw [h]
  exact ⟨rfl, rfl⟩

/-- C7: for any tag that is a key of the relation map, the path query from
the tag to itself succeeds immediately: the start node (carrying count 0)
already satisfies the goal predicate when popped first, so the result is the
single-element path at total cost 0. -/
theorem c7_find_path_self (self : MetaRelation) (T : String)
    (l : List ConnectedTag) (h : findTags self.relation_map T = some l) :
    self.find_path T T = some ([{ name := T, count := 0 }], 0) := by
  unfold MetaRelation.find_path
  rw [h]
  unfold dijkstra searchFuel
  simp [dijkstraLoop, extractMin]

/-- Witness for c7_find_path_self on a one-key map. -/
theorem c7_find_path_self_witness :
    (MetaRelation.mk "d" [("a", [])]).find_path "a" "a" =
      some ([{ name := "a", count := 0 }], 0) :=
  c7_find_path_self ⟨"d", [("a", [])]⟩ "a" [] (by decide)

/-- C8: when the queried tag is a key, `find_top_n` returns exactly the first
`n` entries of the stored neighbour list, of length `min n` (list length),
and (given that the stored list is sorted by count in descending order, as
the loader guarantees) the returned counts are non-increasing; when the tag
is absent it returns the empty list, a normal value rather than a fault. -/
theorem c8_find_top_n_spec (self : MetaRelation) (T : String) (n : Nat) :
    (∀ l, findTags self.relation_map T = some l →
        self.find_top_n T n = l.take n ∧
        (self.find_top_n T n).length = min n l.length ∧
        (l.Pairwise (fun a b => b.count ≤ a.count) →
          (self.find_top_n T n).Pairwise (fun a b => b.count ≤ a.count))) ∧
    (findTags self.relation_map T = none → self.find_top_n T n = []) := by
  constructor
  · intro l h
    have he : self.find_top_n T n = l.take n := by
      unfold MetaRelation.find_top_n
      rw [h]
    refine ⟨he, ?_, ?_⟩
    · rw [he]; exact List.length_take n l
    · intro hs
      rw [he]
      exact hs.sublist (List.take_sublist n l)
  · intro h
    unfold MetaRelation.find_top_n
    rw [h]

/-- Witness for c8_find_top_n_spec: the top-1 query on a two-neighbour list
returns its first entry. -/
theorem c8_find_top_n_spec_witness :
    (MetaRelation.mk "d" [("a", [⟨"b", 5⟩, ⟨"c", 3⟩])]).find_top_n "a" 1 =
      [⟨"b", 5⟩] :=
  ((c8_find_top_n_spec ⟨"d", [("a", [⟨"b", 5⟩, ⟨"c", 3⟩])]⟩ "a" 1).1
    [⟨"b", 5⟩, ⟨"c", 3⟩] (by decide)).1

/-- C9: every neighbour list stored in the relation map produced by the
loader is sorted by count in descending order (no secondary key: the sort is
stable and compares counts only).  Every later operation of the embedding is
a pure function of the `MetaRelation`, so no operation mutates or re-sorts
the stored lists. -/
theorem c9_loaded_lists_sorted (domain : String) (data : RelationMap)
    (k : String) (l : List ConnectedTag)
    (h : (k, l) ∈ (MetaRelation.ofData domain data).relation_map) :
    l.Pairwise (fun a b => b.count ≤ a.count) := by
  unfold MetaRelation.ofData sortTags at h
  simp only [List.mem_map, Prod.mk.injEq] at h
  obtain ⟨p, -, -, rfl⟩ := h
  have hs := @List.sorted_mergeSort ConnectedTag countDescending
    (by intro a b c h1 h2; unfold countDescending at *; simp only [decide_eq_true_eq] at *; omega)
    (by intro a b; unfold countDescending; simpa using Int.le_total b.count a.count)
    p.2
  exact hs.imp (by intro a b hab; simpa [countDescending] using hab)

/-- Witness for c9_loaded_lists_sorted: a list loaded in ascending order
comes out of the loader descending. -/
theorem c9_loaded_lists_sorted_witness :
    ([⟨"c", 5⟩, ⟨"b", 1⟩] : List ConnectedTag).Pairwise
      (fun a b => b.count ≤ a.count) :=
  c9_loaded_lists_sorted "d" [("a", [⟨"b", 1⟩, ⟨"c", 5⟩])] "a" [⟨"c", 5⟩, ⟨"b", 1⟩]
    (by simp [MetaRelation.ofData, sortTags, List.mergeSort, countDescending])

/-- Helper: a popped frontier entry was in the frontier. -/
theorem extractMin_mem {l : Frontier} {x : Int × ConnectedTag × List ConnectedTag}
    {r : Frontier} (h : extractMin l = some (x, r)) : x ∈ l := by
  induction l generalizing x r with
  | nil => simp [extractMin] at h
  | cons a t ih =>
    unfold extractMin at h
    cases he : extractMin t with
    | none =>
      rw [he] at h
      simp only [Option.some.injEq, Prod.mk.injEq] at h
      exact h.1 ▸ List.mem_cons_self a t
    | some yr =>
      obtain ⟨y, ys⟩ := yr
      simp only [he] at h
      by_cases hc : a.1 ≤ y.1
      · rw [if_pos hc] at h
        simp only [Option.some.injEq, Prod.mk.injEq] at h
        exact h.1 ▸ List.mem_cons_self a t
      · rw [if_neg hc] at h
        simp only [Option.some.injEq, Prod.mk.injEq] at h
        exact List.mem_cons_of_mem a (h.1 ▸ ih he)

/-- Helper: the remaining frontier after a pop is contained in the original
frontier. -/
theorem extractMin_subset {l : Frontier} {x : Int × ConnectedTag × List ConnectedTag}
    {r : Frontier} (h : extractMin l = some (x, r)) : ∀ e ∈ r, e ∈ l := by
  induction l generalizing x r with
  | nil => simp [extractMin] at h
  | cons a t ih =>
    unfold extractMin at h
    cases he : extractMin t with
    | none =>
      rw [he] at h
      simp only [Option.some.injEq, Prod.mk.injEq] at h
      intro e hmem
      rw [← h.2] at hmem
      simp at hmem
    | some yr =>
      obtain ⟨y, ys⟩ := yr
      simp only [he] at h
      by_cases hc : a.1 ≤ y.1
      · rw [if_pos hc] at h
        simp only [Option.some.injEq, Prod.mk.injEq] at h
        intro e hmem
        exact List.mem_cons_of_mem a (h.2 ▸ hmem)
      · rw [if_neg hc] at h
        simp only [Option.some.injEq, Prod.mk.injEq] at h
        intro e hmem
        rw [← h.2] at hmem
        rcases List.mem_cons.1 hmem with h1 | h2
        · exact h1 ▸ List.mem_cons_self a t
        · exact List.mem_cons_of_mem a (ih he e h2)

/-- Helper: if the stored (reversed) path of every frontier entry ends in the
node `s`, then any path returned by the search loop starts at `s`. -/
theorem dijkstraLoop_head (succs : ConnectedTag → List (ConnectedTag × Int))
    (success : ConnectedTag → Bool) (s : ConnectedTag) :
    ∀ (fuel : Nat) (frontier : Frontier) (visited : List ConnectedTag),
      (∀ e ∈ frontier, (e.2.2).getLast? = some s) →
      ∀ path cost,
        dijkstraLoop succs success fuel frontier visited = some (path, cost) →
          path.head? = some s := by
  intro fuel
  induction fuel with
  | zero =>
    intro frontier visited hinv path cost h
    simp [dijkstraLoop] at h
  | succ fuel ih =>
    intro frontier visited hinv path cost h
    unfold dijkstraLoop at h
    cases he : extractMin frontier with
    | none => rw [he] at h; simp at h
    | some xr =>
      obtain ⟨⟨c, node, revpath⟩, rest⟩ := xr
      simp only [he] at h
      have hrev : revpath.getLast? = some s := hinv _ (extractMin_mem he)
      by_cases hsucc : success node = true
      · rw [if_pos hsucc] at h
        simp only [Option.some.injEq, Prod.mk.injEq] at h
        rw [← h.1, List.head?_reverse]
        exact hrev
      · rw [if_neg hsucc] at h
        by_cases hv : node ∈ visited
        · rw [if_pos hv] at h
          exact ih rest visited (fun e hm => hinv e (extractMin_subset he e hm))
            path cost h
        · rw [if_neg hv] at h
          refine ih _ _ ?_ path cost h
          intro e hm
          rcases List.mem_append.1 hm with h1 | h2
          · exact hinv e (extractMin_subset he e h1)
          · simp only [List.mem_map] at h2
            obtain ⟨sc, -, rfl⟩ := h2
            show (sc.1 :: revpath).getLast? = some s
            cases revpath with
            | nil => simp at hrev
            | cons b tl => rw [List.getLast?_cons_cons]; exact hrev

/-- C10: whenever `find_path` returns a path, the first element of that path
is the synthetic start record with name equal to the start tag and count 0
(the node built at src/data.rs:88-91), irrespective of any counts the start
tag carries as a neighbour value elsewhere in the map — so the head of a
returned path never carries a meaningful co-occurrence count. -/
theorem c10_path_head_is_start_zero (self : MetaRelation) (start goal : String)
    (path : List ConnectedTag) (cost : Int)
    (h : self.find_path start goal = some (path, cost)) :
    path.head? = some { name := start, count := 0 } := by
  unfold MetaRelation.find_path at h
  cases hf : findTags self.relation_map goal with
  | none => rw [hf] at h; simp at h
  | some l =>
    rw [hf] at h
    unfold dijkstra at h
    refine dijkstraLoop_head _ _ ⟨start, 0⟩ (searchFuel self.relation_map)
      [(0, ⟨start, 0⟩, [⟨start, 0⟩])] [] ?_ path cost h
    intro e hm
    simp only [List.mem_singleton] at hm
    subst hm
    rfl

/-- Witness for c10_path_head_is_start_zero on a map where "a" occurs as a
neighbour value with count 9, yet the returned path's head carries count 0. -/
theorem c10_path_head_is_start_zero_witness :
    ([⟨"a", 0⟩, ⟨"b", 2⟩] : List ConnectedTag).head? = some ⟨"a", 0⟩ :=
  c10_path_head_is_start_zero
    ⟨"d", [("a", [⟨"b", 2⟩]), ("b", [⟨"a", 9⟩])]⟩ "a" "b"
    [⟨"a", 0⟩, ⟨"b", 2⟩] 500 (by decide)
